import Mathlib

/-!
Verification of the url-shortener core (short-code generation, URL service)
against its specification.  The Python source is shallowly embedded:
pure functions become Lean functions, the database session becomes an
explicit `Store` value threaded through the service operations, and
`datetime` values become natural numbers (only order comparisons are used).
-/

set_option maxHeartbeats 1000000

namespace UrlShortener

/-! ### Code generator (`app/utils/short_code.py`) -/

/-- Python `ShortCodeGenerator.CHARSET = string.ascii_letters + string.digits`:
lowercase letters, uppercase letters, then digits (62 symbols). -/
def CHARSET : List Char :=
  "abcdefghijklmnopqrstuvwxyzABCDEFGHIJKLMNOPQRSTUVWXYZ0123456789".toList

/-- The successive base-62 digits of `num`, least significant first, as
produced by the `while num:` loop of `encode_base62` (each iteration does
`num, rem = divmod(num, base)` and appends `CHARSET[rem]`). -/
def encodeDigitsLSF (num : Nat) : List Char :=
  if h : num = 0 then []
  else CHARSET.getD (num % CHARSET.length) 'a' :: encodeDigitsLSF (num / CHARSET.length)
termination_by num
decreasing_by
  exact Nat.div_lt_self (Nat.pos_of_ne_zero h) (by norm_num [CHARSET])

/-- Python `ShortCodeGenerator.encode_base62`: `0` maps to the first charset
character; otherwise the digit list is reversed into most-significant-first
order (`''.join(reversed(base62))`). -/
def encode_base62 (num : Nat) : List Char :=
  if num = 0 then [CHARSET.getD 0 'a']
  else (encodeDigitsLSF num).reverse

/-- Python `ShortCodeGenerator.decode_base62`: folds `num = num * base +
CHARSET.index(char)` over the code.  Python's `str.index` raises on a
character outside the charset; that error outcome is `none`. -/
def decode_base62 (code : List Char) : Option Nat :=
  if code.all (fun c => CHARSET.contains c) then
    some (code.foldl (fun num c => num * CHARSET.length + CHARSET.indexOf c) 0)
  else none

lemma charset_length : CHARSET.length = 62 := by decide

lemma charset_getD_mem : ∀ i < 62, CHARSET.contains (CHARSET.getD i 'a') = true := by decide

lemma charset_indexOf_getD : ∀ i < 62, CHARSET.indexOf (CHARSET.getD i 'a') = i := by decide

lemma encodeDigitsLSF_all_mem (num : Nat) :
    (encodeDigitsLSF num).all (fun c => CHARSET.contains c) = true := by
  induction num using Nat.strong_induction_on with
  | _ n ih =>
    rw [encodeDigitsLSF]
    split
    · rfl
    · rename_i h
      rw [List.all_cons, Bool.and_eq_true]
      refine ⟨charset_getD_mem _ ?_, ih _ (Nat.div_lt_self (Nat.pos_of_ne_zero h) ?_)⟩
      · rw [charset_length]
        exact Nat.mod_lt _ (by norm_num)
      · rw [charset_length]; norm_num

lemma decode_foldl_encodeDigits (num : Nat) : ∀ acc : Nat,
    ((encodeDigitsLSF num).reverse).foldl
        (fun n c => n * CHARSET.length + CHARSET.indexOf c) acc
      = acc * CHARSET.length ^ (encodeDigitsLSF num).length + num := by
  induction num using Nat.strong_induction_on with
  | _ n ih =>
    intro acc
    rw [encodeDigitsLSF]
    split
    · rename_i h; subst h; simp
    · rename_i h
      rw [List.reverse_cons, List.foldl_append, List.length_cons,
        ih _ (Nat.div_lt_self (Nat.pos_of_ne_zero h) (by rw [charset_length]; norm_num))]
      simp only [List.foldl_cons, List.foldl_nil, charset_length]
      rw [charset_indexOf_getD _ (by rw [charset_length] at *; exact Nat.mod_lt _ (by norm_num))]
      rw [pow_succ]
      have hdm : n / 62 * 62 + n % 62 = n := Nat.div_add_mod' n 62
      calc (acc * 62 ^ (encodeDigitsLSF (n / 62)).length + n / 62) * 62 + n % 62
          = acc * (62 ^ (encodeDigitsLSF (n / 62)).length * 62)
              + (n / 62 * 62 + n % 62) := by ring
        _ = acc * (62 ^ (encodeDigitsLSF (n / 62)).length * 62) + n := by rw [hdm]

/-- C1: For every non-negative integer `n`,
`decode_base62 (encode_base62 n)` recovers `n` (the decode succeeds — no
character of an encoded code falls outside the fixed 62-character alphabet
of lowercase letters, uppercase letters, then digits). -/
theorem c1_decode_encode_base62 (n : Nat) :
    decode_base62 (encode_base62 n) = some n := by
  by_cases h : n = 0
  · subst h; decide
  · rw [encode_base62, if_neg h, decode_base62, if_pos, Option.some_inj]
    · rw [decode_foldl_encodeDigits n 0, zero_mul, zero_add]
    · rw [List.all_reverse]
      exact encodeDigitsLSF_all_mem n

/-- Characters `is_valid_custom_code` accepts: alphanumerics plus `-` and `_`. -/
def ALLOWED_CUSTOM_CHARS : List Char := CHARSET ++ ['-', '_']

/-- Python `ShortCodeGenerator.is_valid_custom_code`: nonempty, every character in
the allowed set, length within the configured bounds
(`CUSTOM_ALIAS_MIN_LENGTH = 3`, `CUSTOM_ALIAS_MAX_LENGTH = 20`). -/
def is_valid_custom_code (code : List Char) : Bool :=
  if code.isEmpty then false
  else if !code.all (fun c => ALLOWED_CUSTOM_CHARS.contains c) then false
  else if !(3 ≤ code.length && code.length ≤ 20) then false
  else true

/-- One candidate of `generate_random`:
`''.join(random.choices(CHARSET, k=length))`.  The ambient randomness is an
explicit oracle `draw` giving the charset index chosen for
(length, attempt, position); `random.choices` always returns `length`
symbols of the charset. -/
def randomCandidate (draw : Nat → Nat → Nat → Nat) (len att : Nat) : List Char :=
  (List.range len).map (fun pos => CHARSET.getD (draw len att pos % CHARSET.length) 'a')

/-- The `for _ in range(max_attempts)` loop of `generate_random`: try the
remaining attempts at this length, rejecting any candidate already present
in the store (`URL.query.filter_by(short_code=code).first()`), modelled by
the oracle `inStore`. -/
def tryAttempts (inStore : List Char → Bool) (draw : Nat → Nat → Nat → Nat)
    (len att remaining : Nat) : Option (List Char) :=
  match remaining with
  | 0 => none
  | r + 1 =>
    let code := randomCandidate draw len att
    if inStore code then tryAttempts inStore draw len (att + 1) r
    else some code

/-- Python `ShortCodeGenerator.generate_random`: if every attempt at this length
collides, recurse with `length + 1`.  The Python recursion carries no bound;
`fuel` is the embedding's recursion budget, and `none` means the budget was
exhausted without the function returning (the source itself has no error
outcome at all). -/
def generate_random (inStore : List Char → Bool) (draw : Nat → Nat → Nat → Nat)
    (maxAttempts : Nat) : Nat → Nat → Option (List Char)
  | 0, _ => none
  | fuel + 1, len =>
    match tryAttempts inStore draw len 0 maxAttempts with
    | some code => some code
    | none => generate_random inStore draw maxAttempts fuel (len + 1)

/-! ### Data model (`app/models.py`): the database as an explicit store -/

/-- A row of the `urls` table. -/
structure URLRec where
  id : Nat
  original_url : String
  short_code : List Char
  custom : Bool
  created_at : Nat
  expires_at : Option Nat
  click_count : Nat
deriving DecidableEq, Repr

/-- A row of the `clicks` table. -/
structure Click where
  id : Nat
  url_id : Nat
  clicked_at : Nat
  ip_address : String
  user_agent : String
  referer : String
deriving DecidableEq, Repr

/-- The database: both tables, rows in insertion order. -/
structure Store where
  urls : List URLRec
  clicks : List Click
deriving DecidableEq, Repr

/-- Query `URL.query.filter_by(short_code=code).first()` (no ORDER BY: first row
in insertion order). -/
def findByCode (s : Store) (code : List Char) : Option URLRec :=
  s.urls.find? (fun u => u.short_code == code)

/-- Query `URL.query.filter_by(original_url=url).first()`. -/
def findByOriginal (s : Store) (url : String) : Option URLRec :=
  s.urls.find? (fun u => u.original_url == url)

/-! ### URL service (`app/services/url_service.py`) -/

/-- The fully qualified short URL: the base URL, a slash, the code. -/
def shortUrlOf (baseUrl : String) (code : List Char) : String :=
  baseUrl ++ "/" ++ String.mk code

/-- Python `URLService.validate_url` (the well-formedness test `validators.url`
is a third-party library, taken as the oracle `vo`). -/
def validate_url (vo : String → Bool) (url : String) : Bool × String :=
  if url.isEmpty || url.length > 2048 then
    (false, "URL is required and must be less than 2048 characters")
  else if !vo url then (false, "Invalid URL format")
  else (true, "Valid URL")

/-- The success payload of `create_short_url`. -/
structure CreateResult where
  url : URLRec
  short_url : String
  message : String
  already_exists : Bool
deriving DecidableEq, Repr

/-- The `(success, result)` pair returned by `create_short_url`. -/
inductive CreateRes where
  | success (r : CreateResult)
  | failure (msg : String)
deriving DecidableEq, Repr

/-- The `db.session.add(new_url); db.session.commit()` step.  The commit
fails (and rolls back) when the unique index on `short_code` is violated —
the uniqueness race — or when `commitOk` is false (any other database
error caught by the `except` block). -/
def db_insert_url (s : Store) (u : URLRec) (commitOk : Bool) : Bool × Store :=
  if s.urls.any (fun v => v.short_code == u.short_code) || !commitOk then (false, s)
  else (true, { s with urls := s.urls ++ [u] })

/-- Tail of `create_short_url`: build the new `URL` row and try to commit
it; on failure roll back and report a database error. -/
def insertNewUrl (baseUrl : String) (now newId : Nat) (commitOk : Bool) (s : Store)
    (original_url : String) (code : List Char) (is_custom : Bool)
    (expires_at : Option Nat) : CreateRes × Store :=
  let new_url : URLRec :=
    { id := newId, original_url := original_url, short_code := code,
      custom := is_custom, created_at := now, expires_at := expires_at,
      click_count := 0 }
  let r := db_insert_url s new_url commitOk
  if r.fst then
    (.success { url := new_url, short_url := shortUrlOf baseUrl code,
                message := "URL shortened successfully", already_exists := false },
     r.snd)
  else (.failure "Database error", s)

/-- Python `URLService.create_short_url`.  `genCode` is the outcome of the
`generate_random` call (used only on the non-custom path); `newId` the id
the store assigns on insert; `now` the value of `datetime.utcnow()`.
Python's `if not custom_code:` treats an empty custom code as absent. -/
def create_short_url (vo : String → Bool) (baseUrl : String) (genCode : List Char)
    (now newId : Nat) (commitOk : Bool) (s : Store) (original_url : String)
    (custom_code : Option (List Char)) (expires_at : Option Nat) :
    CreateRes × Store :=
  let v := validate_url vo original_url
  if !v.fst then (.failure v.snd, s)
  else
    let hasCustom := custom_code.elim false (fun c => !c.isEmpty)
    let dedupHit : Option URLRec :=
      if hasCustom then none
      else
        match findByOriginal s original_url with
        | some existing =>
          if existing.expires_at.elim true (fun t => now < t) then some existing
          else none
        | none => none
    match dedupHit with
    | some existing =>
      (.success { url := existing,
                  short_url := shortUrlOf baseUrl existing.short_code,
                  message := "This URL was already shortened. Returning existing short URL.",
                  already_exists := true }, s)
    | none =>
      if hasCustom then
        let cc := custom_code.getD []
        if !is_valid_custom_code cc then (.failure "Invalid custom code format", s)
        else if (findByCode s cc).isSome then (.failure "Custom code already in use", s)
        else insertNewUrl baseUrl now newId commitOk s original_url cc true expires_at
      else insertNewUrl baseUrl now newId commitOk s original_url genCode false expires_at

/-- The `(success, result)` pair of `get_original_url`. -/
inductive LookupRes where
  | found (u : URLRec)
  | err (msg : String)
deriving DecidableEq, Repr

/-- Python `URLService.get_original_url`: look up by code, then the expiration
check `url.expires_at and url.expires_at < datetime.utcnow()`. -/
def get_original_url (s : Store) (short_code : List Char) (now : Nat) : LookupRes :=
  match findByCode s short_code with
  | none => .err "Short URL not found"
  | some url =>
    match url.expires_at with
    | some t => if t < now then .err "Short URL has expired" else .found url
    | none => .found url

/-- The increment `url.click_count += 1`, applied to the row whose id was clicked. -/
def bumpClick (i : Nat) (u : URLRec) : URLRec :=
  if u.id == i then { u with click_count := u.click_count + 1 } else u

/-- Python `URLService.track_click`: bump `click_count` on the clicked row and
append a `Click` row; both are persisted by one commit, and on any failure
the session is rolled back and the exception swallowed (printed), so the
function never raises — it returns a store either way. -/
def track_click (s : Store) (url : URLRec) (ip ua rfr : String)
    (now clickId : Nat) (commitOk : Bool) : Store :=
  if commitOk then
    { urls := s.urls.map (bumpClick url.id),
      clicks := s.clicks ++
        [{ id := clickId, url_id := url.id, clicked_at := now,
           ip_address := ip, user_agent := ua, referer := rfr }] }
  else s

/-- Route `redirect_to_url` (`app/routes/main.py`): look up, 404 on failure,
otherwise track the click best-effort and redirect to the original URL. -/
def redirect_to_url (s : Store) (code : List Char) (now : Nat)
    (ip ua rfr : String) (clickId : Nat) (commitOk : Bool) :
    Option String × Store :=
  match get_original_url s code now with
  | .err _ => (none, s)
  | .found url => (some url.original_url, track_click s url ip ua rfr now clickId commitOk)

/-- The descending-`clicked_at` order of
`url.clicks.order_by(Click.clicked_at.desc())`. -/
def clickDescByTime (a b : Click) : Bool := b.clicked_at ≤ a.clicked_at

/-- Query `url.clicks.order_by(Click.clicked_at.desc()).limit(10)`: the clicks of
this URL, newest first, at most 10. -/
def recent_clicks_of (s : Store) (urlId : Nat) : List Click :=
  ((s.clicks.filter (fun c => c.url_id == urlId)).mergeSort clickDescByTime).take 10

/-- The stats dictionary built by `get_url_stats`. -/
structure Stats where
  url : URLRec
  short_url : String
  total_clicks : Nat
  recent_clicks : List Click
deriving DecidableEq, Repr

/-- The `(success, result)` pair of `get_url_stats`. -/
inductive StatsRes where
  | ok (st : Stats)
  | err (msg : String)
deriving DecidableEq, Repr

/-- Python `URLService.get_url_stats`: look up by code (no expiration check) and
aggregate. -/
def get_url_stats (s : Store) (baseUrl : String) (short_code : List Char) : StatsRes :=
  match findByCode s short_code with
  | none => .err "Short URL not found"
  | some url =>
    .ok { url := url, short_url := shortUrlOf baseUrl url.short_code,
          total_clicks := url.click_count,
          recent_clicks := recent_clicks_of s url.id }

/-- Python `URLService.delete_url`: look up by code; `db.session.delete(url)`
removes the row and, by the `cascade='all, delete-orphan'` relationship,
all of its clicks; on commit failure roll back. -/
def delete_url (s : Store) (short_code : List Char) (commitOk : Bool) :
    (Bool × String) × Store :=
  match findByCode s short_code with
  | none => ((false, "Short URL not found"), s)
  | some url =>
    if commitOk then
      ((true, "URL deleted successfully"),
       { urls := s.urls.filter (fun u => !(u.id == url.id)),
         clicks := s.clicks.filter (fun c => !(c.url_id == url.id)) })
    else ((false, "Database error"), s)

/-- Iterated successful redirect-path click trackings of the URL at `code`:
each one re-fetches the row (as the redirect route does) and runs
`track_click` with a successful commit. -/
def trackN (code : List Char) (ip ua rfr : String) (times cids : Nat → Nat) :
    Nat → Store → Store
  | 0, s => s
  | k + 1, s =>
    let s' := trackN code ip ua rfr times cids k s
    match findByCode s' code with
    | some u => track_click s' u ip ua rfr (times k) (cids k) true
    | none => s'

/-- The referential invariant of §3: every `Click` row references an
existing `URL` row. -/
def clicksOwned (s : Store) : Bool :=
  s.clicks.all (fun c => s.urls.any (fun u => u.id == c.url_id))

/-! ### Concrete fixtures used to instantiate the theorems -/

/-- A stored URL with no expiration. -/
def uFresh : URLRec :=
  { id := 1, original_url := "http://example.com/a", short_code := "aaaaaa".toList,
    custom := false, created_at := 0, expires_at := none, click_count := 0 }

/-- A stored URL that expires at time 5. -/
def uExp : URLRec :=
  { id := 2, original_url := "http://example.com/b", short_code := "bbbbbb".toList,
    custom := false, created_at := 0, expires_at := some 5, click_count := 3 }

/-- A store holding one fresh and one expired URL, no clicks. -/
def sFix : Store := { urls := [uFresh, uExp], clicks := [] }

/-! ### C6: lookup distinguishes NotFound from Expired -/

/-- C6: `get_original_url` returns the not-found error when no record has
the code; the distinct expired error when the record's `expires_at` is set
and in the past; and the URL record itself when the record is unexpired
(`expires_at` unset or in the future). -/
theorem c6_get_original_url_cases (s : Store) (code : List Char) (now t : Nat) (u : URLRec) :
    (findByCode s code = none →
      get_original_url s code now = .err "Short URL not found")
    ∧ (findByCode s code = some u → u.expires_at = some t → t < now →
      get_original_url s code now = .err "Short URL has expired")
    ∧ (findByCode s code = some u →
      (u.expires_at = none ∨ (u.expires_at = some t ∧ now < t)) →
      get_original_url s code now = .found u)
    ∧ "Short URL has expired" ≠ "Short URL not found" := by
  refine ⟨?_, ?_, ?_, by decide⟩
  · intro h
    simp [get_original_url, h]
  · intro h he hlt
    simp [get_original_url, h, he, hlt]
  · intro h hd
    rcases hd with he | ⟨he, hlt⟩
    · simp [get_original_url, h, he]
    · simp [get_original_url, h, he]
      omega

/-- Concrete instantiation of C6's three cases on the fixture store. -/
theorem c6_get_original_url_cases_witness :
    get_original_url sFix ("zzzzzz".toList) 10 = .err "Short URL not found"
    ∧ get_original_url sFix ("bbbbbb".toList) 10 = .err "Short URL has expired"
    ∧ get_original_url sFix ("bbbbbb".toList) 3 = .found uExp := by
  refine ⟨?_, ?_, ?_⟩
  · exact (c6_get_original_url_cases sFix ("zzzzzz".toList) 10 0 uExp).1 (by decide)
  · exact (c6_get_original_url_cases sFix ("bbbbbb".toList) 10 5 uExp).2.1 (by decide) (by decide)
      (by decide)
  · exact (c6_get_original_url_cases sFix ("bbbbbb".toList) 3 5 uExp).2.2.1 (by decide)
      (Or.inr ⟨by decide, by decide⟩)

/-! ### C10: stats ignore expiration -/

/-- C10: `get_url_stats` performs no expiration check — for any code
present in the store it succeeds and reports the record's stats, even when
`expires_at` is set and in the past, although `get_original_url` on the
same code then returns the expired error. -/
theorem c10_stats_ignore_expiration (s : Store) (baseUrl : String) (code : List Char)
    (now t : Nat) (u : URLRec) (h : findByCode s code = some u) :
    (∃ st : Stats, get_url_stats s baseUrl code = .ok st ∧ st.url = u
      ∧ st.total_clicks = u.click_count)
    ∧ (u.expires_at = some t → t < now →
      get_original_url s code now = .err "Short URL has expired") := by
  constructor
  · exact ⟨Stats.mk u (shortUrlOf baseUrl u.short_code) u.click_count (recent_clicks_of s u.id),
      by simp [get_url_stats, h], rfl, rfl⟩
  · intro he hlt
    simp [get_original_url, h, he, hlt]

/-- C10 at a concrete input: the fixture's expired record still has stats. -/
theorem c10_stats_ignore_expiration_witness :
    (∃ st : Stats, get_url_stats sFix "http://localhost:5000" ("bbbbbb".toList) = .ok st
      ∧ st.url = uExp ∧ st.total_clicks = uExp.click_count)
    ∧ (uExp.expires_at = some 5 → 5 < 10 →
      get_original_url sFix ("bbbbbb".toList) 10 = .err "Short URL has expired") :=
  c10_stats_ignore_expiration sFix "http://localhost:5000" ("bbbbbb".toList) 10 5 uExp (by decide)

/-! ### C7: click tracking never breaks the redirect -/

/-- C7: `track_click` propagates no failure — a failed commit rolls back
and is swallowed, so it returns a store either way (on failure, unchanged) —
and the redirect route returns the original URL of a found, unexpired code
regardless of whether the analytics commit succeeds. -/
theorem c7_redirect_survives_tracking_failure (s : Store) (code : List Char) (now : Nat)
    (ip ua rfr : String) (cid : Nat) (ok : Bool) (u : URLRec)
    (h : get_original_url s code now = .found u) :
    (redirect_to_url s code now ip ua rfr cid ok).fst = some u.original_url
    ∧ track_click s u ip ua rfr now cid false = s := by
  constructor
  · simp [redirect_to_url, h]
  · simp [track_click]

/-- C7 at a concrete input, with the analytics commit failing. -/
theorem c7_redirect_survives_tracking_failure_witness :
    (redirect_to_url sFix ("aaaaaa".toList) 10 "1.2.3.4" "agent" "" 7 false).fst
      = some uFresh.original_url
    ∧ track_click sFix uFresh "1.2.3.4" "agent" "" 10 7 false = sFix :=
  c7_redirect_survives_tracking_failure sFix ("aaaaaa".toList) 10 "1.2.3.4" "agent" "" 7 false
    uFresh (by decide)

/-! ### C3: custom-code error paths -/

/-- C3: on a create call with an explicit (nonempty) custom code and a
valid original URL, a malformed code fails with the invalid-custom-code
error, and a code already carried by any stored record — expired or not
(`w` is arbitrary) — fails with the code-in-use error; in both cases the
store is returned unchanged (no record inserted). -/
theorem c3_custom_code_error_paths (vo : String → Bool) (baseUrl : String)
    (genCode : List Char) (now newId : Nat) (ok : Bool) (s : Store)
    (url : String) (cc : List Char) (exp : Option Nat)
    (hv : (validate_url vo url).fst = true) (hne : cc ≠ []) :
    (is_valid_custom_code cc = false →
      create_short_url vo baseUrl genCode now newId ok s url (some cc) exp
        = (.failure "Invalid custom code format", s))
    ∧ (∀ w : URLRec, is_valid_custom_code cc = true → findByCode s cc = some w →
      create_short_url vo baseUrl genCode now newId ok s url (some cc) exp
        = (.failure "Custom code already in use", s)) := by
  have hce : cc.isEmpty = false := by
    cases cc with
    | nil => exact absurd rfl hne
    | cons a l => rfl
  constructor
  · intro hbad
    simp [create_short_url, hv, hce, hbad]
  · intro w hgood hfind
    simp [create_short_url, hv, hce, hgood, hfind]

/-- C3 at concrete inputs: a too-short custom code is rejected as
malformed, and the (expired) fixture record's code is rejected as in use. -/
theorem c3_custom_code_error_paths_witness :
    create_short_url (fun _ => true) "http://localhost:5000" ("zzzzzz".toList) 10 7 true sFix
        "http://example.com/new" (some ("ab".toList)) none
      = (.failure "Invalid custom code format", sFix)
    ∧ create_short_url (fun _ => true) "http://localhost:5000" ("zzzzzz".toList) 10 7 true sFix
        "http://example.com/new" (some ("bbbbbb".toList)) none
      = (.failure "Custom code already in use", sFix) := by
  constructor
  · exact (c3_custom_code_error_paths (fun _ => true) "http://localhost:5000" ("zzzzzz".toList)
      10 7 true sFix "http://example.com/new" ("ab".toList) none (by decide) (by decide)).1
      (by decide)
  · exact (c3_custom_code_error_paths (fun _ => true) "http://localhost:5000" ("zzzzzz".toList)
      10 7 true sFix "http://example.com/new" ("bbbbbb".toList) none (by decide) (by decide)).2
      uExp (by decide) (by decide)

/-! ### C2: dedup-and-reuse on create -/

/-- An expired record for the duplicated URL, inserted first. -/
def uDupOld : URLRec :=
  { id := 1, original_url := "http://dup.com/x", short_code := "cccccc".toList,
    custom := false, created_at := 0, expires_at := some 5, click_count := 0 }

/-- A non-expired record for the same URL, inserted second. -/
def uDupFresh : URLRec :=
  { id := 2, original_url := "http://dup.com/x", short_code := "dddddd".toList,
    custom := false, created_at := 1, expires_at := none, click_count := 0 }

/-- A store where the first `original_url` match is expired but a later
match is not. -/
def sDup : Store := { urls := [uDupOld, uDupFresh], clicks := [] }

/-- The record the create call mints in the C2 counterexample. -/
def uDupNew : URLRec :=
  { id := 3, original_url := "http://dup.com/x", short_code := "eeeeee".toList,
    custom := false, created_at := 10, expires_at := none, click_count := 0 }

/-- C2 as stated is false: in `sDup` the non-expired record `uDupFresh`
has the requested `original_url`, yet the call (no custom code, valid URL)
does not return it — the dedup lookup takes the first match `uDupOld`,
finds it expired, and inserts a brand-new record with
`already_exists = false`. -/
theorem c2_counterexample :
    (uDupFresh ∈ sDup.urls ∧ uDupFresh.original_url = "http://dup.com/x"
      ∧ uDupFresh.expires_at = none)
    ∧ create_short_url (fun _ => true) "http://localhost:5000" ("eeeeee".toList) 10 3 true sDup
        "http://dup.com/x" none none
      = (.success (CreateResult.mk uDupNew
            (shortUrlOf "http://localhost:5000" ("eeeeee".toList))
            "URL shortened successfully" false),
         { urls := [uDupOld, uDupFresh, uDupNew], clicks := [] }) := by
  exact ⟨by decide, by decide⟩

/-- Helper `insertNewUrl` can only succeed with `already_exists = false`. -/
lemma insertNewUrl_already_exists_false (baseUrl : String) (now newId : Nat) (ok : Bool)
    (s : Store) (url : String) (code : List Char) (isc : Bool) (exp : Option Nat)
    (r : CreateResult) (s' : Store)
    (h : insertNewUrl baseUrl now newId ok s url code isc exp = (.success r, s')) :
    r.already_exists = false := by
  simp only [insertNewUrl] at h
  split at h
  · simp only [Prod.mk.injEq, CreateRes.success.injEq] at h
    rw [← h.1]
  · simp at h

/-- C2 amended: the dedup-and-reuse policy keys on the *first* stored
record matching `original_url` (the lookup has no ordering clause): when
that first match is non-expired and no custom code is given, the call
returns it with `already_exists = true` and its existing short code,
inserting nothing; and with a custom code present the reuse path is never
taken (every successful result has `already_exists = false`).  When the
first match is expired, a new record is created even if a later non-expired
match exists (the counterexample). -/
theorem c2_amended_dedup_first_match (vo : String → Bool) (baseUrl : String)
    (genCode : List Char) (now newId : Nat) (ok : Bool) (s : Store)
    (url : String) (exp : Option Nat)
    (hv : (validate_url vo url).fst = true) :
    (∀ r : URLRec, findByOriginal s url = some r →
      (r.expires_at = none ∨ ∃ t, r.expires_at = some t ∧ now < t) →
      create_short_url vo baseUrl genCode now newId ok s url none exp
        = (.success (CreateResult.mk r (shortUrlOf baseUrl r.short_code)
            "This URL was already shortened. Returning existing short URL." true), s))
    ∧ (∀ (cc : List Char) (r : CreateResult) (s' : Store), cc ≠ [] →
      create_short_url vo baseUrl genCode now newId ok s url (some cc) exp
        = (.success r, s') →
      r.already_exists = false) := by
  constructor
  · intro r hr hexp
    rcases hexp with he | ⟨t, he, hlt⟩
    · simp [create_short_url, hv, hr, he]
    · simp [create_short_url, hv, hr, he, hlt]
  · intro cc r s' hne h
    have hce : cc.isEmpty = false := by
      cases cc with
      | nil => exact absurd rfl hne
      | cons a l => rfl
    by_cases hval : is_valid_custom_code cc = true
    · by_cases hdup : (findByCode s cc).isSome = true
      · simp [create_short_url, hv, hce, hval, hdup] at h
      · rw [Bool.not_eq_true] at hdup
        simp [create_short_url, hv, hce, hval, hdup] at h
        exact insertNewUrl_already_exists_false _ _ _ _ _ _ _ _ _ _ _ h
    · rw [Bool.not_eq_true] at hval
      simp [create_short_url, hv, hce, hval] at h

/-- C2 amended, at a concrete input: the fixture's fresh record is reused
with `already_exists = true` and the store is unchanged. -/
theorem c2_amended_dedup_first_match_witness :
    create_short_url (fun _ => true) "http://localhost:5000" ("zzzzzz".toList) 10 7 true sFix
      "http://example.com/a" none none
    = (.success (CreateResult.mk uFresh (shortUrlOf "http://localhost:5000" uFresh.short_code)
        "This URL was already shortened. Returning existing short URL." true), sFix) :=
  (c2_amended_dedup_first_match (fun _ => true) "http://localhost:5000" ("zzzzzz".toList) 10 7
    true sFix "http://example.com/a" none (by decide)).1 uFresh (by decide) (Or.inl (by decide))

/-! ### C5: behaviour on an insert-time uniqueness failure -/

/-- C5 as stated is false: when the generated code already exists at
insert time (the uniqueness race — here `"aaaaaa"` is already stored), the
service does not regenerate and retry; the single create call fails with
the generic database error and leaves the store unchanged. -/
theorem c5_counterexample :
    findByCode sFix ("aaaaaa".toList) = some uFresh
    ∧ create_short_url (fun _ => true) "http://localhost:5000" ("aaaaaa".toList) 10 9 true sFix
        "http://race.com/x" none none
      = (.failure "Database error", sFix) := by
  exact ⟨by decide, by decide⟩

/-- C5 amended: an insert-time uniqueness failure on a randomly generated
code is rolled back and surfaced as a database-error failure with the store
unchanged — no regeneration, no retry; for custom codes the user-facing
code-in-use error comes from the pre-insert existence check, likewise
without retry and without touching the store. -/
theorem c5_amended_no_retry_on_duplicate (vo : String → Bool) (baseUrl : String)
    (genCode : List Char) (now newId : Nat) (s : Store) (url : String) (exp : Option Nat)
    (hv : (validate_url vo url).fst = true)
    (hno : findByOriginal s url = none)
    (hdup : s.urls.any (fun v => v.short_code == genCode) = true) :
    create_short_url vo baseUrl genCode now newId true s url none exp
      = (.failure "Database error", s)
    ∧ (∀ (cc : List Char) (w : URLRec), cc ≠ [] → is_valid_custom_code cc = true →
      findByCode s cc = some w →
      create_short_url vo baseUrl genCode now newId true s url (some cc) exp
        = (.failure "Custom code already in use", s)) := by
  constructor
  · simp [create_short_url, hv, hno, insertNewUrl, db_insert_url, hdup]
  · intro cc w hne hval hfind
    have hce : cc.isEmpty = false := by
      cases cc with
      | nil => exact absurd rfl hne
      | cons a l => rfl
    simp [create_short_url, hv, hce, hval, hfind]

/-- C5 amended at concrete inputs: the colliding random code fails with
the database error; the stored custom code fails with the code-in-use
error. -/
theorem c5_amended_no_retry_on_duplicate_witness :
    create_short_url (fun _ => true) "http://localhost:5000" ("aaaaaa".toList) 10 9 true sFix
      "http://race.com/x" none none = (.failure "Database error", sFix)
    ∧ create_short_url (fun _ => true) "http://localhost:5000" ("aaaaaa".toList) 10 9 true sFix
      "http://race.com/x" (some ("bbbbbb".toList)) none
      = (.failure "Custom code already in use", sFix) := by
  have h := c5_amended_no_retry_on_duplicate (fun _ => true) "http://localhost:5000"
    ("aaaaaa".toList) 10 9 sFix "http://race.com/x" none (by decide) (by decide) (by decide)
  exact ⟨h.1, h.2 ("bbbbbb".toList) uExp (by decide) (by decide) (by decide)⟩

/-! ### C4: behaviour of `generate_random` -/

lemma randomCandidate_length (draw : Nat → Nat → Nat → Nat) (len att : Nat) :
    (randomCandidate draw len att).length = len := by
  simp [randomCandidate]

lemma randomCandidate_all_mem (draw : Nat → Nat → Nat → Nat) (len att : Nat) :
    (randomCandidate draw len att).all (fun c => CHARSET.contains c) = true := by
  rw [randomCandidate, List.all_eq_true]
  intro c hc
  obtain ⟨pos, hpos, rfl⟩ := List.mem_map.1 hc
  exact charset_getD_mem _ (by rw [charset_length] at *; exact Nat.mod_lt _ (by norm_num))

lemma tryAttempts_some (inStore : List Char → Bool) (draw : Nat → Nat → Nat → Nat)
    (len : Nat) : ∀ att rem code, tryAttempts inStore draw len att rem = some code →
    inStore code = false ∧ code.all (fun c => CHARSET.contains c) = true
      ∧ code.length = len := by
  intro att rem
  induction rem generalizing att with
  | zero => intro code h; exact absurd h (by simp [tryAttempts])
  | succ r ih =>
    intro code h
    rw [tryAttempts] at h
    by_cases hc : inStore (randomCandidate draw len att) = true
    · rw [if_pos hc] at h
      exact ih (att + 1) code h
    · rw [Bool.not_eq_true] at hc
      rw [if_neg (by rw [hc]; exact Bool.false_ne_true)] at h
      cases h
      exact ⟨hc, randomCandidate_all_mem draw len att, randomCandidate_length draw len att⟩

lemma generate_random_some (inStore : List Char → Bool) (draw : Nat → Nat → Nat → Nat)
    (ma : Nat) : ∀ fuel len code, generate_random inStore draw ma fuel len = some code →
    inStore code = false ∧ code.all (fun c => CHARSET.contains c) = true
      ∧ len ≤ code.length := by
  intro fuel
  induction fuel with
  | zero => intro len code h; exact absurd h (by simp [generate_random])
  | succ f ih =>
    intro len code h
    rw [generate_random] at h
    cases hta : tryAttempts inStore draw len 0 ma with
    | some c =>
      rw [hta] at h
      have hcc : c = code := by injection h
      subst hcc
      obtain ⟨h1, h2, h3⟩ := tryAttempts_some inStore draw len 0 ma c hta
      exact ⟨h1, h2, le_of_eq h3.symm⟩
    | none =>
      rw [hta] at h
      obtain ⟨h1, h2, h3⟩ := ih (len + 1) code h
      exact ⟨h1, h2, le_trans (Nat.le_succ len) h3⟩

lemma tryAttempts_allTaken (draw : Nat → Nat → Nat → Nat) (len : Nat) :
    ∀ rem att, tryAttempts (fun _ => true) draw len att rem = none := by
  intro rem
  induction rem with
  | zero => intro att; rfl
  | succ r ih => intro att; rw [tryAttempts, if_pos rfl]; exact ih (att + 1)

lemma generate_random_allTaken (draw : Nat → Nat → Nat → Nat) (ma : Nat) :
    ∀ fuel len, generate_random (fun _ => true) draw ma fuel len = none := by
  intro fuel
  induction fuel with
  | zero => intro len; rfl
  | succ f ih =>
    intro len
    rw [generate_random, tryAttempts_allTaken draw len ma 0]
    exact ih (len + 1)

/-- C4 as stated is false at length 21: with every candidate already taken
(the constantly-true store oracle), `generate_random` at the putative cap's
boundary does not fail with any `GenerationExhausted` error — one step just
recurses to length 22, and no recursion budget (here 100 levels) ever
produces a result: the source has no length cap and no error outcome. -/
theorem c4_counterexample :
    generate_random (fun _ => true) (fun _ _ _ => 0) 10 6 21
      = generate_random (fun _ => true) (fun _ _ _ => 0) 10 5 22
    ∧ generate_random (fun _ => true) (fun _ _ _ => 0) 10 100 21 = none := by
  constructor
  · rw [generate_random, tryAttempts_allTaken]
  · exact generate_random_allTaken (fun _ _ _ => 0) 10 100 21

/-- C4 amended: `generate_random` draws `length` symbols from the
62-character alphabet, rejects up to `max_attempts` candidates already in
the store, and recurses with `length + 1` when all attempts collide; any
code it returns is fresh, alphabet-only and at least `length` long.  But
the recursion is uncapped and the function has no `GenerationExhausted`
(or any other) error outcome: when every candidate collides it recurses
forever — `none` for every recursion budget `fuel`, at every length,
including lengths beyond 20. -/
theorem c4_generate_random_behaviour (inStore : List Char → Bool)
    (draw : Nat → Nat → Nat → Nat) (ma fuel len : Nat) :
    (∀ code, generate_random inStore draw ma fuel len = some code →
      inStore code = false ∧ code.all (fun c => CHARSET.contains c) = true
        ∧ len ≤ code.length)
    ∧ (tryAttempts inStore draw len 0 ma = none →
      generate_random inStore draw ma (fuel + 1) len
        = generate_random inStore draw ma fuel (len + 1))
    ∧ generate_random (fun _ => true) draw ma fuel len = none := by
  refine ⟨fun code h => generate_random_some inStore draw ma fuel len code h, ?_, ?_⟩
  · intro h
    rw [generate_random, h]
  · exact generate_random_allTaken draw ma fuel len

/-- C4's amended behaviour at concrete inputs: with codes of length ≤ 21
all taken, the attempts at length 21 collide and a fresh length-22 code of
letter `'a'`s (`draw` picks index 0) is returned by the next level. -/
theorem c4_generate_random_behaviour_witness :
    ((fun c : List Char => decide (c.length ≤ 21)) (List.replicate 22 'a') = false
      ∧ (List.replicate 22 'a').all (fun c => CHARSET.contains c) = true
      ∧ 21 ≤ (List.replicate 22 'a').length)
    ∧ generate_random (fun c : List Char => decide (c.length ≤ 21)) (fun _ _ _ => 0) 1 2 21
      = generate_random (fun c : List Char => decide (c.length ≤ 21)) (fun _ _ _ => 0) 1 1 22 := by
  constructor
  · exact (c4_generate_random_behaviour (fun c => decide (c.length ≤ 21)) (fun _ _ _ => 0)
      1 2 21).1 (List.replicate 22 'a') (by decide)
  · exact (c4_generate_random_behaviour (fun c => decide (c.length ≤ 21)) (fun _ _ _ => 0)
      1 1 21).2.1 (by decide)

/-! ### C8: stats after k successful clicks -/

lemma bumpClick_short_code (i : Nat) (u : URLRec) :
    (bumpClick i u).short_code = u.short_code := by
  unfold bumpClick
  split <;> rfl

lemma bumpClick_id (i : Nat) (u : URLRec) : (bumpClick i u).id = u.id := by
  unfold bumpClick
  split <;> rfl

lemma find?_bumpClick (i : Nat) (code : List Char) (l : List URLRec) :
    (l.map (bumpClick i)).find? (fun u => u.short_code == code)
      = (l.find? (fun u => u.short_code == code)).map (bumpClick i) := by
  rw [List.find?_map]
  have hp : ((fun u : URLRec => u.short_code == code) ∘ bumpClick i)
      = (fun u : URLRec => u.short_code == code) := by
    funext u
    simp [Function.comp, bumpClick_short_code]
  rw [hp]

lemma findByCode_track_click (s : Store) (u : URLRec) (ip ua rfr : String)
    (now cid : Nat) (code : List Char) :
    findByCode (track_click s u ip ua rfr now cid true) code
      = (findByCode s code).map (bumpClick u.id) :=
  find?_bumpClick u.id code s.urls

lemma trackN_findByCode (code : List Char) (ip ua rfr : String) (times cids : Nat → Nat)
    (s : Store) (u : URLRec) (h : findByCode s code = some u) :
    ∀ k, findByCode (trackN code ip ua rfr times cids k s) code
      = some { u with click_count := u.click_count + k } := by
  intro k
  induction k with
  | zero => simpa using h
  | succ k ih =>
    rw [trackN]
    simp only [ih]
    rw [findByCode_track_click, ih]
    simp [bumpClick]
    omega

lemma trackN_clicks_count (code : List Char) (ip ua rfr : String) (times cids : Nat → Nat)
    (s : Store) (u : URLRec) (h : findByCode s code = some u) :
    ∀ k, ((trackN code ip ua rfr times cids k s).clicks.filter
        (fun c => c.url_id == u.id)).length
      = (s.clicks.filter (fun c => c.url_id == u.id)).length + k := by
  intro k
  induction k with
  | zero => rfl
  | succ k ih =>
    rw [trackN]
    simp only [trackN_findByCode code ip ua rfr times cids s u h k]
    simp only [track_click, if_pos]
    rw [List.filter_append, List.length_append, ih]
    simp
    omega

lemma clickDescByTime_trans (a b c : Click) :
    clickDescByTime a b → clickDescByTime b c → clickDescByTime a c := by
  simp only [clickDescByTime, decide_eq_true_eq]
  omega

lemma clickDescByTime_total (a b : Click) :
    clickDescByTime a b || clickDescByTime b a := by
  simp only [clickDescByTime, Bool.or_eq_true, decide_eq_true_eq]
  omega

/-- C8: starting from a record with zero clicks and no click rows, after
`k` successful click trackings (as the redirect path performs them)
`get_url_stats` reports `total_clicks = k` and `recent_clicks` with
`min 10 k` entries — never more than 10 — ordered newest-first
(non-increasing `clicked_at`). -/
theorem c8_stats_after_k_clicks (s : Store) (baseUrl : String) (code : List Char)
    (ip ua rfr : String) (times cids : Nat → Nat) (k : Nat) (u : URLRec)
    (h : findByCode s code = some u) (h0 : u.click_count = 0)
    (hc : s.clicks.filter (fun c => c.url_id == u.id) = []) :
    ∃ st : Stats,
      get_url_stats (trackN code ip ua rfr times cids k s) baseUrl code = .ok st
      ∧ st.total_clicks = k
      ∧ st.recent_clicks.length ≤ 10
      ∧ st.recent_clicks.length = min 10 k
      ∧ st.recent_clicks.Pairwise (fun a b => b.clicked_at ≤ a.clicked_at) := by
  have hf := trackN_findByCode code ip ua rfr times cids s u h k
  refine ⟨Stats.mk { u with click_count := u.click_count + k }
      (shortUrlOf baseUrl u.short_code) (u.click_count + k)
      (recent_clicks_of (trackN code ip ua rfr times cids k s) u.id),
    ?_, ?_, ?_, ?_, ?_⟩
  · simp [get_url_stats, hf]
  · simp [h0]
  · rw [recent_clicks_of, List.length_take]
    exact Nat.min_le_left _ _
  · rw [recent_clicks_of, List.length_take, List.length_mergeSort]
    rw [trackN_clicks_count code ip ua rfr times cids s u h k, hc]
    simp
  · have hs := List.sorted_mergeSort clickDescByTime_trans clickDescByTime_total
      ((trackN code ip ua rfr times cids k s).clicks.filter (fun c => c.url_id == u.id))
    have hp := List.Pairwise.sublist (List.take_sublist 10 _) hs
    exact hp.imp (fun hab => by
      simpa [clickDescByTime, decide_eq_true_eq] using hab)

/-- C8 at concrete inputs: three clicks on the fixture's fresh record give
`total_clicks = 3` and at most ten newest-first recent clicks. -/
theorem c8_stats_after_k_clicks_witness :
    ∃ st : Stats,
      get_url_stats (trackN ("aaaaaa".toList) "1.2.3.4" "agent" "" (fun n => n) (fun n => n)
          3 sFix) "http://localhost:5000" ("aaaaaa".toList) = .ok st
      ∧ st.total_clicks = 3
      ∧ st.recent_clicks.length ≤ 10
      ∧ st.recent_clicks.length = min 10 3
      ∧ st.recent_clicks.Pairwise (fun a b => b.clicked_at ≤ a.clicked_at) :=
  c8_stats_after_k_clicks sFix "http://localhost:5000" ("aaaaaa".toList) "1.2.3.4" "agent" ""
    (fun n => n) (fun n => n) 3 uFresh (by decide) (by decide) (by decide)

/-! ### C9: delete cascades clicks; the ownership invariant is preserved -/

lemma db_insert_url_clicksOwned (s : Store) (u : URLRec) (ok : Bool)
    (h : clicksOwned s = true) : clicksOwned (db_insert_url s u ok).snd = true := by
  unfold db_insert_url
  split
  · exact h
  · unfold clicksOwned at *
    rw [List.all_eq_true] at *
    intro c hc
    have hcc := h c hc
    simp only [List.any_append, hcc, Bool.true_or]

lemma insertNewUrl_clicksOwned (baseUrl : String) (now newId : Nat) (ok : Bool)
    (s : Store) (url : String) (code : List Char) (isc : Bool) (exp : Option Nat)
    (h : clicksOwned s = true) :
    clicksOwned (insertNewUrl baseUrl now newId ok s url code isc exp).snd = true := by
  simp only [insertNewUrl]
  split
  · exact db_insert_url_clicksOwned s _ ok h
  · exact h

lemma create_clicksOwned (vo : String → Bool) (baseUrl : String) (genCode : List Char)
    (now newId : Nat) (ok : Bool) (s : Store) (url : String)
    (custom : Option (List Char)) (exp : Option Nat) (h : clicksOwned s = true) :
    clicksOwned (create_short_url vo baseUrl genCode now newId ok s url custom exp).snd
      = true := by
  simp only [create_short_url]
  repeat' split
  all_goals
    first
      | exact h
      | exact insertNewUrl_clicksOwned _ _ _ _ _ _ _ _ _ h

lemma any_id_map_bumpClick (i x : Nat) (l : List URLRec) :
    (l.map (bumpClick i)).any (fun v => v.id == x) = l.any (fun v => v.id == x) := by
  rw [List.any_map]
  have hp : ((fun v : URLRec => v.id == x) ∘ bumpClick i)
      = (fun v : URLRec => v.id == x) := by
    funext v
    simp [Function.comp, bumpClick_id]
  rw [hp]

lemma track_click_clicksOwned (s : Store) (tu : URLRec) (ip ua rfr : String)
    (now cid : Nat) (ok : Bool) (h : clicksOwned s = true)
    (hmem : s.urls.any (fun v => v.id == tu.id) = true) :
    clicksOwned (track_click s tu ip ua rfr now cid ok) = true := by
  cases ok with
  | false => exact h
  | true =>
    unfold track_click clicksOwned at *
    rw [if_pos rfl, List.all_eq_true]
    intro c hc
    rw [List.mem_append] at hc
    cases hc with
    | inl hcs =>
      have hcc := List.all_eq_true.mp h c hcs
      rw [any_id_map_bumpClick]
      exact hcc
    | inr hnew =>
      rw [List.mem_singleton] at hnew
      subst hnew
      rw [any_id_map_bumpClick]
      exact hmem

lemma delete_clicksOwned (s : Store) (code : List Char) (ok : Bool)
    (h : clicksOwned s = true) : clicksOwned (delete_url s code ok).snd = true := by
  cases hfind : findByCode s code with
  | none =>
    simp only [delete_url, hfind]
    exact h
  | some u =>
    cases ok with
    | false =>
      simp only [delete_url, hfind, Bool.false_eq_true, if_false]
      exact h
    | true =>
      simp only [delete_url, hfind, if_pos]
      unfold clicksOwned at *
      rw [List.all_eq_true]
      intro c hc
      rw [List.mem_filter] at hc
      obtain ⟨hcs, hcneq⟩ := hc
      have hv := List.all_eq_true.mp h c hcs
      rw [List.any_eq_true] at hv ⊢
      obtain ⟨v, hvmem, hvid⟩ := hv
      refine ⟨v, List.mem_filter.mpr ⟨hvmem, ?_⟩, hvid⟩
      simp only [beq_iff_eq] at hvid
      simp only [Bool.not_eq_eq_eq_not, Bool.not_true, beq_eq_false_iff_ne, ne_eq] at hcneq ⊢
      rw [hvid]
      exact hcneq

/-- C9: deleting an existing code succeeds and removes the URL row together
with every one of its click rows, after which lookup, redirect-lookup and
stats on that code all report not-found; deleting an unknown code fails
with the not-found error and leaves the store unchanged; and the
create / track-click / delete operations each preserve the invariant that
every click row references an existing URL row.  (`huniq` is the unique
short-code index of §3: any row carrying `u`'s code is `u`'s row.) -/
theorem c9_delete_cascade_and_ownership (s : Store) (baseUrl : String) (code : List Char)
    (now : Nat) (u : URLRec) (vo : String → Bool) (genCode : List Char) (newId : Nat)
    (ok : Bool) (url : String) (custom : Option (List Char)) (exp : Option Nat)
    (ip ua rfr : String) (cid : Nat) (tu : URLRec) :
    (findByCode s code = some u →
      (∀ v ∈ s.urls, v.short_code = u.short_code → v.id = u.id) →
      delete_url s code true
        = ((true, "URL deleted successfully"),
           { urls := s.urls.filter (fun v => !(v.id == u.id)),
             clicks := s.clicks.filter (fun c => !(c.url_id == u.id)) })
      ∧ ((delete_url s code true).snd.clicks.filter (fun c => c.url_id == u.id)) = []
      ∧ findByCode (delete_url s code true).snd code = none
      ∧ get_original_url (delete_url s code true).snd code now = .err "Short URL not found"
      ∧ get_url_stats (delete_url s code true).snd baseUrl code = .err "Short URL not found")
    ∧ (findByCode s code = none →
      delete_url s code true = ((false, "Short URL not found"), s))
    ∧ (clicksOwned s = true →
      clicksOwned (create_short_url vo baseUrl genCode now newId ok s url custom exp).snd
        = true
      ∧ (s.urls.any (fun v => v.id == tu.id) = true →
        clicksOwned (track_click s tu ip ua rfr now cid ok) = true)
      ∧ clicksOwned (delete_url s code ok).snd = true) := by
  refine ⟨?_, ?_, ?_⟩
  · intro hfind huniq
    have hdel : delete_url s code true
        = ((true, "URL deleted successfully"),
           { urls := s.urls.filter (fun v => !(v.id == u.id)),
             clicks := s.clicks.filter (fun c => !(c.url_id == u.id)) }) := by
      simp only [delete_url, hfind, if_pos]
    have hcode : u.short_code = code := by
      have := List.find?_some hfind
      simpa [beq_iff_eq] using this
    have hnone : findByCode (delete_url s code true).snd code = none := by
      rw [hdel]
      unfold findByCode
      rw [List.find?_eq_none]
      intro v hv
      rw [List.mem_filter] at hv
      obtain ⟨hvmem, hvneq⟩ := hv
      intro hvp
      simp only [beq_iff_eq] at hvp
      have hvid := huniq v hvmem (by rw [hvp, hcode])
      simp [hvid] at hvneq
    refine ⟨hdel, ?_, hnone, ?_, ?_⟩
    · rw [hdel]
      simp
    · unfold get_original_url
      rw [hnone]
    · unfold get_url_stats
      rw [hnone]
  · intro hnone
    unfold delete_url
    rw [hnone]
  · intro h
    exact ⟨create_clicksOwned vo baseUrl genCode now newId ok s url custom exp h,
      fun hmem => track_click_clicksOwned s tu ip ua rfr now cid ok h hmem,
      delete_clicksOwned s code ok h⟩

/-- A one-URL store carrying one click of that URL. -/
def sOne : Store :=
  { urls := [uFresh], clicks := [Click.mk 1 uFresh.id 4 "1.2.3.4" "agent" ""] }

/-- C9 at concrete inputs: deleting the fixture's fresh record (with one
of its clicks present) cascades to the empty store, and deleting an
unknown code changes nothing. -/
theorem c9_delete_cascade_and_ownership_witness :
    delete_url sOne ("aaaaaa".toList) true
      = ((true, "URL deleted successfully"), Store.mk [] [])
    ∧ delete_url sFix ("zzzzzz".toList) true = ((false, "Short URL not found"), sFix) := by
  constructor
  · have h := (c9_delete_cascade_and_ownership sOne "http://localhost:5000" ("aaaaaa".toList)
      10 uFresh (fun _ => true) [] 0 true "" none none "" "" "" 0 uFresh).1
      (by decide) (by decide)
    rw [h.1]
    decide
  · exact (c9_delete_cascade_and_ownership sFix "http://localhost:5000" ("zzzzzz".toList) 10
      uFresh (fun _ => true) [] 0 true "" none none "" "" "" 0 uFresh).2.1 (by decide)

end UrlShortener
